import Mathlib

/-!
# Verification of the mediation-layer kernel

A shallow embedding, in Lean 4, of the authorization kernel (track 3:
`ConstraintEngine`, `SecurityKernel`) and the schema validator (track 2:
`SchemaTranslator`) of the repository, together with theorems settling the
specification's claims about them.

Modelling conventions:
* Python dictionaries are modelled as association lists in insertion order
  (`List (String × Value)`); `key in d` / `d[key]` become `pyLookup`.
* Python runtime values are the inductive `Value`.  Python `bool` is a
  subclass of `int`, so `isinstance(v, int)` is true for booleans; this is
  reflected in `pyIsInstInt`.  Floats are carried as rationals: no claim
  depends on float arithmetic or float formatting, which stay out of scope.
* The one uncaught exception the embedded code can raise (`KeyError` on
  `user_context['user_id']`) is modelled by `PyResult.exn`; everything else
  is total.
* `str.strip`, `str.split("=", 1)`, `int(...)` and the regular-expression
  fragment used by the code are implemented character-list based, so every
  definition reduces inside the kernel (`decide`/`rfl` work on closed terms).
-/

/-- A Python runtime value.  `bool` is kept separate from `int` because
`isinstance(True, int)` and `isinstance(1, bool)` differ in Python; numeric
cross-type behaviour is encoded in the helper functions below.  Container
stringification (`str([...])`) is modelled opaquely (`pyStr`), which no claim
exercises. -/
inductive Value where
  | str (s : String)
  | int (n : Int)
  | bool (b : Bool)
  | float (q : Rat)
  | list (elems : List Value)
  | dict (entries : List (String × Value))

/-- Result of running embedded Python code: either a normal value or an
uncaught exception (here always `KeyError`). -/
inductive PyResult (α : Type) where
  | ok (a : α)
  | exn
  deriving DecidableEq

/-- Association-list lookup, first binding wins — Python `d[key]` /
`key in d` for a dict built in insertion order. -/
def pyLookup {α : Type} (key : String) : List (String × α) → Option α
  | [] => none
  | (k, v) :: rest => if k == key then some v else pyLookup key rest

/-- The character set removed by Python `str.strip()` with no argument. -/
def pySpaceChar (c : Char) : Bool :=
  c == ' ' || c == '\t' || c == '\n' || c == '\r' ||
  c == Char.ofNat 11 || c == Char.ofNat 12

/-- Remove leading and trailing characters satisfying `p` (Python
`str.strip` family). -/
def stripWhile (p : Char → Bool) (l : List Char) : List Char :=
  ((l.dropWhile p).reverse.dropWhile p).reverse

/-- Python `s.strip()`. -/
def pyStrip (s : String) : String :=
  ⟨stripWhile pySpaceChar s.data⟩

/-- Python `s.strip(c)` for a single strip character. -/
def pyStripChar (c : Char) (s : String) : String :=
  ⟨stripWhile (· == c) s.data⟩

/-- Split at the first occurrence of `c`: Python `s.split(c, 1)` when `c`
occurs in `s` (the only context in which the code uses it). -/
def splitFirstAux (c : Char) : List Char → List Char × List Char
  | [] => ([], [])
  | d :: rest =>
    if d == c then ([], rest)
    else
      let (before, after) := splitFirstAux c rest
      (d :: before, after)

/-- The part of `s` before the first `c` (Python `s.split(c, 1)[0]`). -/
def splitFirstBefore (c : Char) (s : String) : String :=
  ⟨(splitFirstAux c s.data).1⟩

/-- The part of `s` after the first `c` (Python `s.split(c, 1)[1]`). -/
def splitFirstAfter (c : Char) (s : String) : String :=
  ⟨(splitFirstAux c s.data).2⟩

/-- Boolean prefix test on character lists. -/
def isPrefixList : List Char → List Char → Bool
  | [], _ => true
  | _ :: _, [] => false
  | a :: as, b :: bs => a == b && isPrefixList as bs

/-- Python `s.startswith(pre)`. -/
def pyStartsWith (pre s : String) : Bool :=
  isPrefixList pre.data s.data

/-- Parse an optionally signed decimal numeral (digits only, surrounding
whitespace allowed): Python `int(string)`, `none` when Python would raise
`ValueError`.  (Underscore digit separators, accepted by CPython, are not
modelled; no input in the repository uses them.) -/
def pyIntOfString (s : String) : Option Int :=
  let t := stripWhile pySpaceChar s.data
  let (neg, digits) :=
    match t with
    | '-' :: rest => (true, rest)
    | '+' :: rest => (false, rest)
    | _ => (false, t)
  if digits.isEmpty || !(digits.all Char.isDigit) then none
  else
    let n := digits.foldl (fun acc c => acc * 10 + (c.toNat - '0'.toNat)) 0
    some (if neg then -(n : Int) else (n : Int))

/-- Python `int(value)` on a runtime value: ints pass through, booleans
become 0/1, strings are parsed, floats truncate toward zero, containers
raise `TypeError` (`none`). -/
def pyIntOfValue : Value → Option Int
  | .int n => some n
  | .bool b => some (if b then 1 else 0)
  | .str s => pyIntOfString s
  | .float q => some (if 0 ≤ q then q.floor else -((-q).floor)) -- truncation toward zero
  | .list _ => none
  | .dict _ => none

/-- Python `str(value)`.  Exact for strings, ints and booleans — the only
categories any embedded code path stringifies on inputs the claims touch.
Float and container rendering is a placeholder (documented approximation);
every theorem below is parametric in these cases. -/
def pyStr : Value → String
  | .str s => s
  | .int n => toString n
  | .bool b => if b then "True" else "False"
  | .float q => toString q
  | .list _ => "<list>"
  | .dict _ => "<dict>"

/-- Python `==` between runtime values.  Numeric cross-type equality
(`True == 1`, `1 == 1.0`) is modelled; container equality is pointwise in
order on the scalar level only (an approximation no claim exercises,
containers compare unequal here). -/
def pyEq : Value → Value → Bool
  | .str a, .str b => a == b
  | .int a, .int b => a == b
  | .bool a, .bool b => a == b
  | .int a, .bool b => a == (if b then 1 else 0)
  | .bool a, .int b => (if a then 1 else 0 : Int) == b
  | .float a, .float b => a == b
  | .int a, .float b => (a : Rat) == b
  | .float a, .int b => a == (b : Rat)
  | .bool a, .float b => ((if a then 1 else 0 : Int) : Rat) == b
  | .float a, .bool b => a == ((if b then 1 else 0 : Int) : Rat)
  | _, _ => false

/-!
## Regular-expression fragment

`SecurityKernel.enforce` runs
`re.fullmatch(token.tool_pattern.replace("*", ".*"), tool_name)`: after the
substitution, `*` denotes "any (possibly empty) character sequence" and a
literal `.` in the pattern is the regex wildcard "any single character".
`globMatchAux` interprets the *original* pattern directly under exactly those
two rules, which coincides with the substituted regex for every pattern whose
characters carry no other regex meaning (all patterns in the repository:
alphanumerics, `_`, `.`, `*`).  Patterns using further regex metacharacters
are outside the modelled fragment.
-/

/-- All suffixes of a character list, longest first. -/
def charTails : List Char → List (List Char)
  | [] => [[]]
  | c :: rest => (c :: rest) :: charTails rest

/-- Anchored match of a glob-turned-regex pattern against a name:
`*` matches any character sequence, `.` any single character, every other
pattern character only itself; the whole name must be consumed
(`re.fullmatch`). -/
def globMatchAux : List Char → List Char → Bool
  | [], s => s.isEmpty
  | '*' :: ps, s => (charTails s).any (fun t => globMatchAux ps t)
  | '.' :: ps, s =>
    match s with
    | [] => false
    | _ :: t => globMatchAux ps t
  | c :: ps, s =>
    match s with
    | [] => false
    | d :: t => c == d && globMatchAux ps t

/-- `re.fullmatch(pattern.replace("*", ".*"), name)` as a boolean, on the
modelled pattern fragment. -/
def pyFullmatchGlob (pattern name : String) : Bool :=
  globMatchAux pattern.data name.data

/-- Modelled from the spec (for refutation of claim C2's match semantics,
not from the source): a pattern matches when "the tool name consists of the
pattern's characters taken literally, with `*` matching the entire remainder
of the name", anchored at both ends.  In particular `.` only matches itself
here. -/
def specLiteralGlobAux : List Char → List Char → Bool
  | [], s => s.isEmpty
  | '*' :: _, _ => true
  | c :: ps, s =>
    match s with
    | [] => false
    | d :: t => c == d && specLiteralGlobAux ps t

/-- String-level entry point for `specLiteralGlobAux`. -/
def specLiteralGlob (pattern name : String) : Bool :=
  specLiteralGlobAux pattern.data name.data

/-!
## Track 3: `ConstraintEngine` and `SecurityKernel`
(`src/track 3/track_3_implementation.py`)
-/

/-- `CapabilityToken` of the track 3 implementation. -/
structure CapabilityToken where
  tool_pattern : String
  operations : List String
  constraints : List String
  description : String
  deriving DecidableEq

namespace ConstraintEngine

/-- `ConstraintEngine.evaluate(constraint, args, user_context)`.

Branch structure mirrors the source line for line:
1. `"=" in constraint and not constraint.startswith("exclude")`: split at the
   first `=`, strip the key, strip whitespace then single then double quotes
   off the value; a key absent from `args` satisfies the constraint, otherwise
   `str(args[key])` must equal the value.  This branch always returns.
2. `constraint == "ownedByUser"`: when `args` has `owner` (else `user_id`),
   compare it to `user_context['user_id']` — an unguarded dict access that
   raises `KeyError` (`PyResult.exn`) when the context lacks `user_id`.
3. `constraint.startswith("maxRecords=")`: parse the piece between the first
   and second `=` as an int and compare against `int(args['limit'])`, all
   parse failures swallowed by `try/except`.  (Unreachable: any such string
   already took branch 1.)
4. Otherwise `True` (fail-open). -/
def evaluate (constraint : String) (args user_context : List (String × Value)) :
    PyResult Bool :=
  if constraint.data.contains '=' && !(pyStartsWith "exclude" constraint) then
    let key := pyStrip (splitFirstBefore '=' constraint)
    let required_val :=
      pyStripChar (Char.ofNat 34) (pyStripChar (Char.ofNat 39) (pyStrip (splitFirstAfter '=' constraint)))
    match pyLookup key args with
    | none => .ok true
    | some v => .ok (pyStr v == required_val)
  else if constraint == "ownedByUser" then
    match pyLookup "owner" args with
    | some v =>
      match pyLookup "user_id" user_context with
      | some u => .ok (pyEq v u)
      | none => .exn
    | none =>
      match pyLookup "user_id" args with
      | some v =>
        match pyLookup "user_id" user_context with
        | some u => .ok (pyEq v u)
        | none => .exn
      | none => .ok true
  else if pyStartsWith "maxRecords=" constraint then
    match pyIntOfString (splitFirstBefore '=' (splitFirstAfter '=' constraint)) with
    | none => .ok true
    | some limit =>
      match pyLookup "limit" args with
      | none => .ok true
      | some lv =>
        match pyIntOfValue lv with
        | none => .ok true
        | some n => .ok (!(n > limit))
  else
    .ok true

end ConstraintEngine

namespace SecurityKernel

/-- The `violation_detail` dict of a decision.  `failed_constraint = none`
means the key is absent (the `NoCapabilityToken` shape `{"tool": ...}`);
`failed_constraint = some v` means the key is present with the Python value
`v : Optional[str]` (the `ConstraintViolation` shape). -/
structure ViolationDetails where
  tool : String
  failed_constraint : Option (Option String)
  deriving DecidableEq

/-- The `(Allowed, Reason, ViolationDetails)` triple `enforce` returns,
under the spec's name `Decision`. -/
structure Decision where
  allowed : Bool
  reason : String
  details : Option ViolationDetails
  deriving DecidableEq

/-- The inner constraint loop of `enforce` for one token: returns the first
constraint that evaluates false (Python's `violation`), `none` when all
constraints are met, and propagates an evaluation exception. -/
def checkToken (args user_context : List (String × Value)) :
    List String → PyResult (Option String)
  | [] => .ok none
  | c :: cs =>
    match ConstraintEngine.evaluate c args user_context with
    | .exn => .exn
    | .ok true => checkToken args user_context cs
    | .ok false => .ok (some c)

/-- The token loop of `enforce` over the already-filtered matching tokens,
with the running value of Python's `violation` variable as accumulator: the
first fully satisfied token returns the `Allowed` decision, and when the loop
is exhausted the decision is `ConstraintViolation` carrying the last written
`violation`. -/
def enforceGo (tool_name : String) (args user_context : List (String × Value)) :
    List CapabilityToken → Option String → PyResult Decision
  | [], violation =>
    .ok ⟨false, "ConstraintViolation", some ⟨tool_name, some violation⟩⟩
  | t :: rest, _ =>
    match checkToken args user_context t.constraints with
    | .exn => .exn
    | .ok none => .ok ⟨true, "Allowed", none⟩
    | .ok (some c) => enforceGo tool_name args user_context rest (some c)

/-- Step 1 of `enforce`: the sublist of tokens whose glob pattern fully
matches the tool name, in original order. -/
def matchingTokens (tool_name : String) (user_tokens : List CapabilityToken) :
    List CapabilityToken :=
  user_tokens.filter (fun t => pyFullmatchGlob t.tool_pattern tool_name)

/-- `SecurityKernel.enforce(tool_name, args, user_tokens, user_context)`. -/
def enforce (tool_name : String) (args : List (String × Value))
    (user_tokens : List CapabilityToken)
    (user_context : List (String × Value)) : PyResult Decision :=
  let matching := matchingTokens tool_name user_tokens
  if matching.isEmpty then
    .ok ⟨false, "NoCapabilityToken", some ⟨tool_name, none⟩⟩
  else
    enforceGo tool_name args user_context matching none

/-- The decision `{allowed: true, reason: "Allowed", details: None}`. -/
def allowedDecision : Decision := ⟨true, "Allowed", none⟩

/-- The decision `enforce` returns when no token's pattern matches. -/
def noCapabilityDecision (tool_name : String) : Decision :=
  ⟨false, "NoCapabilityToken", some ⟨tool_name, none⟩⟩

end SecurityKernel

/-!
## Track 2: `SchemaTranslator`
(`src/track 2/track_2_implementation.py`)

`validate_args` reads a JSON-schema-like dict
`{"parameters": {"properties": {...}, "required": [...]}}`; each property may
carry a `"type"` string and a `"pattern"` regex string.  The pattern reaches
`re.match(pattern, value)` unchanged, so `*` there would be a Kleene star,
not a glob: the modelled pattern fragment for this layer is star-free
(literal characters plus the `.` wildcard), which covers every pattern the
claims and the repository exercise.
-/

/-- `isinstance(v, str)`. -/
def pyIsInstStr : Value → Bool
  | .str _ => true
  | _ => false

/-- `isinstance(v, int)`.  Python booleans are a subclass of `int`, so they
pass this check. -/
def pyIsInstInt : Value → Bool
  | .int _ => true
  | .bool _ => true
  | _ => false

/-- `isinstance(v, (int, float))` — any Python numeric, booleans included. -/
def pyIsInstNum : Value → Bool
  | .int _ => true
  | .bool _ => true
  | .float _ => true
  | _ => false

/-- `isinstance(v, bool)`. -/
def pyIsInstBool : Value → Bool
  | .bool _ => true
  | _ => false

/-- `isinstance(v, list)`. -/
def pyIsInstList : Value → Bool
  | .list _ => true
  | _ => false

/-- `isinstance(v, dict)`. -/
def pyIsInstDict : Value → Bool
  | .dict _ => true
  | _ => false

/-- `type(value).__name__`, as used in the type-mismatch message. -/
def pyTypeName : Value → String
  | .str _ => "str"
  | .int _ => "int"
  | .bool _ => "bool"
  | .float _ => "float"
  | .list _ => "list"
  | .dict _ => "dict"

/-- Python `needle in hay` on strings (substring containment). -/
def isSubstr (needle hay : String) : Bool :=
  (charTails hay.data).any (fun t => isPrefixList needle.data t)

/-- Python `s.lower()` (ASCII-accurate, which covers every type tag in
scope). -/
def pyLower (s : String) : String :=
  ⟨s.data.map Char.toLower⟩

/-- `re.match(pattern, s)` truthiness on the star-free fragment: the match
is anchored at the start only — it succeeds when some *prefix* of `s`
matches the pattern, `.` matching any single character. -/
def reMatchPrefixAux : List Char → List Char → Bool
  | [], _ => true
  | '.' :: ps, s =>
    match s with
    | [] => false
    | _ :: t => reMatchPrefixAux ps t
  | c :: ps, s =>
    match s with
    | [] => false
    | d :: t => c == d && reMatchPrefixAux ps t

/-- String-level entry point for `reMatchPrefixAux`. -/
def pyReMatch (pattern s : String) : Bool :=
  reMatchPrefixAux pattern.data s.data

/-- Modelled from the spec (for refutation of claim C6, not from the
source): a *full* match of the star-free pattern against the whole string,
both ends anchored. -/
def reFullmatchStarFreeAux : List Char → List Char → Bool
  | [], s => s.isEmpty
  | '.' :: ps, s =>
    match s with
    | [] => false
    | _ :: t => reFullmatchStarFreeAux ps t
  | c :: ps, s =>
    match s with
    | [] => false
    | d :: t => c == d && reFullmatchStarFreeAux ps t

/-- String-level entry point for `reFullmatchStarFreeAux`. -/
def reFullmatchStarFree (pattern s : String) : Bool :=
  reFullmatchStarFreeAux pattern.data s.data

/-- One property's schema dict: the optional `"type"` tag and the optional
`"pattern"` regex, the only keys `validate_args` reads. -/
structure FieldSchema where
  type : Option String
  pattern : Option String
  deriving DecidableEq

/-- The slice of a tool's schema dict that `validate_args` reads:
`schema["parameters"]["properties"]` and `schema["parameters"]["required"]`
(both defaulting to empty via `.get`). -/
structure ToolSchema where
  properties : List (String × FieldSchema)
  required : List String

/-- Structured content of a `ValidationResult` error message.  The source
carries these as formatted strings ("Missing required argument: ...",
"Type mismatch for ...: expected E, got A", "Value for ... does not match
pattern P"); the constructor arguments are exactly the data interpolated
into those strings. -/
inductive VError where
  | missingRequired (field : String)
  | typeMismatch (field expected actual : String)
  | patternMismatch (field pattern : String)
  deriving DecidableEq

/-- `ValidationResult(valid, error)`; the advisory `fix_suggestion` text is
determined by the error and not modelled. -/
structure ValidationResult where
  valid : Bool
  error : Option VError
  deriving DecidableEq

namespace SchemaTranslator

/-- `SchemaTranslator.validate_type(value, expected_type)`. -/
def validate_type (value : Value) (expected_type : String) : Bool :=
  if expected_type == "string" then pyIsInstStr value
  else if expected_type == "integer" then pyIsInstInt value
  else if expected_type == "number" then pyIsInstNum value
  else if expected_type == "boolean" then pyIsInstBool value
  else if expected_type == "array" then pyIsInstList value
  else if expected_type == "object" then pyIsInstDict value
  else true

/-- The inline tag normalization of `validate_args` (the `elif` chain on
`type_def.lower()`): case-insensitive substring search, first hit wins. -/
def normalizeTypeTag (type_def : String) : String :=
  let l := pyLower type_def
  if isSubstr "int" l then "integer"
  else if isSubstr "str" l then "string"
  else if isSubstr "bool" l then "boolean"
  else if isSubstr "list" l then "array"
  else if isSubstr "dict" l then "object"
  else "unknown"

/-- The `# Type Check` block of `validate_args` for one argument: with a
declared `"type"` tag, normalize it and run `validate_type` unless the
normalized tag is `unknown`; the error carries the normalized tag and
`type(value).__name__`. -/
def typeCheckError (key : String) (value : Value) : Option String → Option VError
  | none => none
  | some type_def =>
    if normalizeTypeTag type_def != "unknown"
        && !(validate_type value (normalizeTypeTag type_def)) then
      some (.typeMismatch key (normalizeTypeTag type_def) (pyTypeName value))
    else none

/-- The per-argument loop of `validate_args` (`for key, value in
args.items()`): arguments not declared in `properties` are skipped; a
declared `"type"` is normalized and checked first (`typeCheckError`), then a
declared `"pattern"` is checked when the value is a string; the first
failure returns. -/
def checkFields (props : List (String × FieldSchema)) :
    List (String × Value) → ValidationResult
  | [] => ⟨true, none⟩
  | (key, value) :: rest =>
    match pyLookup key props with
    | none => checkFields props rest
    | some fs =>
      match typeCheckError key value fs.type with
      | some e => ⟨false, some e⟩
      | none =>
        match fs.pattern, value with
        | some pat, .str s =>
          if !(pyReMatch pat s) then ⟨false, some (.patternMismatch key pat)⟩
          else checkFields props rest
        | _, _ => checkFields props rest

/-- `SchemaTranslator.validate_args(tool_name, args, schema)`: required
fields first (first absent one wins), then the per-argument checks. -/
def validate_args (tool_name : String) (args : List (String × Value))
    (schema : ToolSchema) : ValidationResult :=
  match schema.required.find? (fun f => (pyLookup f args).isNone) with
  | some f => ⟨false, some (.missingRequired f)⟩
  | none => checkFields schema.properties args

end SchemaTranslator

/-!
## Helper lemmas

Characterizations of `ConstraintEngine.evaluate`, `SecurityKernel.checkToken`
and `SecurityKernel.enforceGo` used by several claim theorems below.
-/

theorem startsWith_head {a : Char} {as l : List Char} (h : isPrefixList (a :: as) l = true) :
    ∃ t, l = a :: t := by
  cases l with
  | nil => simp [isPrefixList] at h
  | cons b bs =>
    simp only [isPrefixList, Bool.and_eq_true, beq_iff_eq] at h
    exact ⟨bs, by rw [h.1]⟩

/-- With `user_id` bound in the context, constraint evaluation cannot raise:
the only exception site is the `user_context['user_id']` access. -/
theorem evaluate_ne_exn {user_context : List (String × Value)}
    (h : (pyLookup "user_id" user_context).isSome)
    (c : String) (args : List (String × Value)) :
    ConstraintEngine.evaluate c args user_context ≠ .exn := by
  obtain ⟨u, hu⟩ := Option.isSome_iff_exists.mp h
  unfold ConstraintEngine.evaluate
  intro hcontra
  dsimp only at hcontra
  repeat' split at hcontra
  all_goals simp_all

namespace SecurityKernel

/-- The first constraint of a list that evaluates to `false` (the final
value of Python's `violation` variable for one token), meaningful when
evaluation does not raise. -/
def tokenFirstFail (args user_context : List (String × Value)) : List String → Option String
  | [] => none
  | c :: cs =>
    match ConstraintEngine.evaluate c args user_context with
    | .ok false => some c
    | _ => tokenFirstFail args user_context cs

theorem checkToken_ok_none_iff (args user_context : List (String × Value)) (cs : List String) :
    checkToken args user_context cs = .ok none ↔
      ∀ c ∈ cs, ConstraintEngine.evaluate c args user_context = .ok true := by
  induction cs with
  | nil => simp [checkToken]
  | cons c cs ih =>
    simp only [checkToken, List.mem_cons]
    cases hv : ConstraintEngine.evaluate c args user_context with
    | exn =>
      constructor
      · intro hc; cases hc
      · intro hall
        have := hall c (Or.inl rfl)
        rw [hv] at this; cases this
    | ok b =>
      cases b with
      | true =>
        rw [ih]
        constructor
        · intro hall d hd
          cases hd with
          | inl hh => rw [hh]; exact hv
          | inr hh => exact hall d hh
        · intro hall d hd; exact hall d (Or.inr hd)
      | false =>
        constructor
        · intro hc; cases hc
        · intro hall
          have := hall c (Or.inl rfl)
          rw [hv] at this; cases this

theorem checkToken_eq_firstFail {user_context : List (String × Value)}
    (h : (pyLookup "user_id" user_context).isSome)
    (args : List (String × Value)) (cs : List String) :
    checkToken args user_context cs = .ok (tokenFirstFail args user_context cs) := by
  induction cs with
  | nil => simp [checkToken, tokenFirstFail]
  | cons c cs ih =>
    simp only [checkToken, tokenFirstFail]
    cases hv : ConstraintEngine.evaluate c args user_context with
    | exn => exact absurd hv (evaluate_ne_exn h c args)
    | ok b => cases b <;> simp [ih]

theorem tokenFirstFail_eq_none_iff {user_context : List (String × Value)}
    (h : (pyLookup "user_id" user_context).isSome)
    (args : List (String × Value)) (cs : List String) :
    tokenFirstFail args user_context cs = none ↔
      ∀ c ∈ cs, ConstraintEngine.evaluate c args user_context = .ok true := by
  rw [← checkToken_ok_none_iff, checkToken_eq_firstFail h]
  constructor
  · intro hh; rw [hh]
  · intro hh
    cases hhh : tokenFirstFail args user_context cs
    · rfl
    · rw [hhh] at hh; cases hh

theorem checkToken_ne_exn {user_context : List (String × Value)}
    (h : (pyLookup "user_id" user_context).isSome)
    (args : List (String × Value)) (cs : List String) :
    checkToken args user_context cs ≠ .exn := by
  rw [checkToken_eq_firstFail h]
  intro hc; cases hc

theorem enforceGo_allowed_of_mem {user_context : List (String × Value)}
    (h : (pyLookup "user_id" user_context).isSome)
    (tool_name : String) (args : List (String × Value)) :
    ∀ (ts : List CapabilityToken) (v : Option String),
      (∃ t ∈ ts, checkToken args user_context t.constraints = .ok none) →
      enforceGo tool_name args user_context ts v = .ok allowedDecision := by
  intro ts
  induction ts with
  | nil => rintro v ⟨t, ht, _⟩; cases ht
  | cons t rest ih =>
    rintro v ⟨t', ht', hgood⟩
    simp only [enforceGo]
    cases hc : checkToken args user_context t.constraints with
    | exn => exact absurd hc (checkToken_ne_exn h args t.constraints)
    | ok o =>
      cases o with
      | none => rfl
      | some cfail =>
        apply ih
        rcases List.mem_cons.mp ht' with he | hrest
        · subst he; rw [hgood] at hc; cases hc
        · exact ⟨t', hrest, hgood⟩

theorem enforceGo_allowed_elim (tool_name : String)
    (args user_context : List (String × Value)) :
    ∀ (ts : List CapabilityToken) (v : Option String),
      enforceGo tool_name args user_context ts v = .ok allowedDecision →
      ∃ t ∈ ts, checkToken args user_context t.constraints = .ok none := by
  intro ts
  induction ts with
  | nil =>
    intro v hc
    simp only [enforceGo, allowedDecision] at hc
    cases hc
  | cons t rest ih =>
    intro v hc
    simp only [enforceGo] at hc
    cases hcheck : checkToken args user_context t.constraints with
    | exn => rw [hcheck] at hc; cases hc
    | ok o =>
      cases o with
      | none => exact ⟨t, List.mem_cons_self t rest, hcheck⟩
      | some cfail =>
        rw [hcheck] at hc
        obtain ⟨t', ht', hg⟩ := ih _ hc
        exact ⟨t', List.mem_cons_of_mem t ht', hg⟩

theorem enforceGo_ne_noCapability (tool_name : String)
    (args user_context : List (String × Value)) :
    ∀ (ts : List CapabilityToken) (v : Option String),
      enforceGo tool_name args user_context ts v ≠ .ok (noCapabilityDecision tool_name) := by
  have hs : ("ConstraintViolation" : String) ≠ "NoCapabilityToken" := by decide
  have ha : (true : Bool) ≠ false := by decide
  intro ts
  induction ts with
  | nil =>
    intro v hc
    simp only [enforceGo, noCapabilityDecision, PyResult.ok.injEq, Decision.mk.injEq] at hc
    exact hs hc.2.1
  | cons t rest ih =>
    intro v hc
    simp only [enforceGo] at hc
    cases hcheck : checkToken args user_context t.constraints with
    | exn => rw [hcheck] at hc; cases hc
    | ok o =>
      cases o with
      | none =>
        rw [hcheck] at hc
        simp only [allowedDecision, noCapabilityDecision, PyResult.ok.injEq, Decision.mk.injEq] at hc
        exact ha hc.1
      | some cfail =>
        rw [hcheck] at hc
        exact ih _ hc

theorem enforceGo_violation {user_context : List (String × Value)}
    (h : (pyLookup "user_id" user_context).isSome)
    (tool_name : String) (args : List (String × Value)) :
    ∀ (ts : List CapabilityToken) (v : Option String) (hne : ts ≠ []),
      (∀ t ∈ ts, tokenFirstFail args user_context t.constraints ≠ none) →
      enforceGo tool_name args user_context ts v =
        .ok ⟨false, "ConstraintViolation",
          some ⟨tool_name, some (tokenFirstFail args user_context (ts.getLast hne).constraints)⟩⟩ := by
  intro ts
  induction ts with
  | nil => intro v hne _; exact absurd rfl hne
  | cons t rest ih =>
    intro v hne hfail
    simp only [enforceGo]
    rw [checkToken_eq_firstFail h]
    cases hf : tokenFirstFail args user_context t.constraints with
    | none => exact absurd hf (hfail t (List.mem_cons_self t rest))
    | some cfail =>
      cases rest with
      | nil => simp [enforceGo, List.getLast, hf]
      | cons t2 rest2 =>
        have hne2 : t2 :: rest2 ≠ [] := List.cons_ne_nil t2 rest2
        dsimp only
        rw [ih (some cfail) hne2 (fun t' ht' => hfail t' (List.mem_cons_of_mem t ht'))]
        rw [List.getLast_cons hne2]

/-- Decision-level characterization of an `Allowed` outcome: with `user_id`
bound in the context, `enforce` allows exactly when some held token both
matches the tool name and has all of its constraints evaluate true. -/
theorem enforce_allowed_char {user_context : List (String × Value)}
    (h : (pyLookup "user_id" user_context).isSome)
    (tool_name : String) (args : List (String × Value))
    (user_tokens : List CapabilityToken) :
    enforce tool_name args user_tokens user_context = .ok allowedDecision ↔
      ∃ t ∈ user_tokens, pyFullmatchGlob t.tool_pattern tool_name = true ∧
        ∀ c ∈ t.constraints,
          ConstraintEngine.evaluate c args user_context = .ok true := by
  unfold enforce
  dsimp only
  cases hemp : (matchingTokens tool_name user_tokens).isEmpty with
  | true =>
    rw [if_pos rfl]
    constructor
    · intro hc
      simp only [allowedDecision, PyResult.ok.injEq, Decision.mk.injEq] at hc
      cases hc.1
    · rintro ⟨t, ht, hmatch, _⟩
      rw [List.isEmpty_iff] at hemp
      have hmem : t ∈ matchingTokens tool_name user_tokens :=
        List.mem_filter.mpr ⟨ht, hmatch⟩
      rw [hemp] at hmem
      cases hmem
  | false =>
    rw [if_neg (by decide)]
    constructor
    · intro hc
      obtain ⟨t, ht, hg⟩ := enforceGo_allowed_elim tool_name args user_context _ _ hc
      have hm := List.mem_filter.mp ht
      exact ⟨t, hm.1, hm.2, (checkToken_ok_none_iff args user_context t.constraints).mp hg⟩
    · rintro ⟨t, ht, hmatch, hall⟩
      exact enforceGo_allowed_of_mem h tool_name args _ _
        ⟨t, List.mem_filter.mpr ⟨ht, hmatch⟩,
          (checkToken_ok_none_iff args user_context t.constraints).mpr hall⟩

/-- Decision-level characterization of a `NoCapabilityToken` outcome,
unconditional: that decision is produced exactly when no held token's
pattern matches the tool name. -/
theorem enforce_noCap_char (tool_name : String)
    (args user_context : List (String × Value))
    (user_tokens : List CapabilityToken) :
    enforce tool_name args user_tokens user_context
        = .ok (noCapabilityDecision tool_name) ↔
      ∀ t ∈ user_tokens, pyFullmatchGlob t.tool_pattern tool_name = false := by
  unfold enforce
  dsimp only
  cases hemp : (matchingTokens tool_name user_tokens).isEmpty with
  | true =>
    rw [if_pos rfl]
    rw [List.isEmpty_iff] at hemp
    simp only [noCapabilityDecision, true_iff]
    intro t ht
    by_contra hmatch
    have hmem : t ∈ matchingTokens tool_name user_tokens :=
      List.mem_filter.mpr ⟨ht, by simp at hmatch; simp [hmatch]⟩
    rw [hemp] at hmem
    cases hmem
  | false =>
    rw [if_neg (by decide)]
    constructor
    · intro hc
      exact absurd hc (enforceGo_ne_noCapability tool_name args user_context _ _)
    · intro hall
      exfalso
      rw [List.isEmpty_eq_false_iff_exists_mem] at hemp
      obtain ⟨t, ht⟩ := hemp
      have hm := List.mem_filter.mp ht
      rw [hall t hm.1] at hm
      cases hm.2

end SecurityKernel

namespace SecurityKernel

/-- Decision-level characterization of a `ConstraintViolation` outcome: with
`user_id` bound in the context, when some token matches but every matching
token has a failing constraint, `enforce` denies and reports the first
failing constraint of the last matching token tried. -/
theorem enforce_violation_char {user_context : List (String × Value)}
    (h : (pyLookup "user_id" user_context).isSome)
    (tool_name : String) (args : List (String × Value))
    (user_tokens : List CapabilityToken)
    (hne : matchingTokens tool_name user_tokens ≠ [])
    (hfail : ∀ t ∈ matchingTokens tool_name user_tokens,
      ∃ c ∈ t.constraints, ConstraintEngine.evaluate c args user_context = .ok false) :
    enforce tool_name args user_tokens user_context =
      .ok ⟨false, "ConstraintViolation",
        some ⟨tool_name, some (tokenFirstFail args user_context
          ((matchingTokens tool_name user_tokens).getLast hne).constraints)⟩⟩ := by
  unfold enforce
  dsimp only
  rw [if_neg (by simp [List.isEmpty_iff, hne])]
  apply enforceGo_violation h tool_name args _ none hne
  intro t ht hnone
  obtain ⟨c, hc, hcf⟩ := hfail t ht
  have := (tokenFirstFail_eq_none_iff h args t.constraints).mp hnone c hc
  rw [hcf] at this
  cases this

end SecurityKernel

/-- Star-free full matches are in particular prefix matches. -/
theorem reFullmatch_imp_prefix :
    ∀ (p s : List Char), reFullmatchStarFreeAux p s = true → reMatchPrefixAux p s = true := by
  intro p
  induction p with
  | nil => intro s _; rfl
  | cons c ps ih =>
    intro s hfull
    by_cases hc : c = '.'
    · subst hc
      cases s with
      | nil => simp [reFullmatchStarFreeAux] at hfull
      | cons d t =>
        simp only [reFullmatchStarFreeAux] at hfull
        simp only [reMatchPrefixAux]
        exact ih t hfull
    · cases s with
      | nil =>
        simp [reFullmatchStarFreeAux, hc] at hfull
      | cons d t =>
        simp only [reFullmatchStarFreeAux, hc] at hfull
        rw [Bool.and_eq_true] at hfull
        simp only [reMatchPrefixAux, hc, Bool.and_eq_true]
        exact ⟨hfull.1, ih t hfull.2⟩

namespace SchemaTranslator

/-- The type-check block never produces a missing-required error. -/
theorem typeCheckError_not_missing (key : String) (value : Value) (t : Option String) (f : String) :
    typeCheckError key value t ≠ some (.missingRequired f) := by
  cases t with
  | none => simp [typeCheckError]
  | some td =>
    simp only [typeCheckError]
    split <;> simp

/-- The per-argument loop never produces a missing-required error: those
come only from the separate required-fields pass. -/
theorem checkFields_no_missing (props : List (String × FieldSchema)) :
    ∀ (args : List (String × Value)) (f : String),
      checkFields props args ≠ ⟨false, some (.missingRequired f)⟩ := by
  intro args
  induction args with
  | nil => intro f hc; simp [checkFields] at hc
  | cons kv rest ih =>
    intro f hc
    obtain ⟨key, value⟩ := kv
    simp only [checkFields] at hc
    cases hlk : pyLookup key props with
    | none => rw [hlk] at hc; exact ih f hc
    | some fs =>
      rw [hlk] at hc
      dsimp only at hc
      cases hty : typeCheckError key value fs.type with
      | some e =>
        rw [hty] at hc
        dsimp only at hc
        simp only [ValidationResult.mk.injEq, Option.some.injEq, true_and] at hc
        rw [hc] at hty
        exact absurd hty (typeCheckError_not_missing _ _ _ _)
      | none =>
        rw [hty] at hc
        dsimp only at hc
        split at hc
        · split at hc
          · simp at hc
          · exact ih f hc
        · exact ih f hc

/-- Single-declared-field reduction of `validate_args` for a parameter
carrying only a `"type"` tag: the outcome is decided by the normalized tag
and `validate_type`. -/
theorem validate_args_single_type (tool_name x tag : String) (v : Value) :
    validate_args tool_name [(x, v)] ⟨[(x, ⟨some tag, none⟩)], []⟩ =
      if normalizeTypeTag tag != "unknown" && !(validate_type v (normalizeTypeTag tag)) then
        ⟨false, some (.typeMismatch x (normalizeTypeTag tag) (pyTypeName v))⟩
      else ⟨true, none⟩ := by
  simp only [validate_args, List.find?, checkFields, pyLookup, beq_self_eq_true, if_true,
    typeCheckError]
  split
  · rename_i e heq
    split at heq <;> simp_all
  · rename_i heq
    split at heq
    · simp_all
    · rename_i hcond
      simp only [Bool.and_eq_true, bne_iff_ne, ne_eq, Bool.not_eq_true', not_and] at hcond
      rw [if_neg]
      intro hx
      simp only [Bool.and_eq_true, bne_iff_ne, ne_eq, Bool.not_eq_true'] at hx
      exact (hcond hx.1) hx.2

end SchemaTranslator

/-!
## Claim theorems

One theorem per claim of the specification review, with witnesses for the
hypothesis-bearing ones and counterexamples where the claim as stated fails
on the code.
-/

/-- C1 (amended): provided the caller's context binds `user_id` (as
`enforce`'s caller in the repository always does — without it constraint
evaluation can raise `KeyError` and `enforce` propagates the exception
instead of returning a decision), `enforce` returns the allowed decision
with reason `Allowed` if and only if at least one held token whose pattern
matches the tool name has every one of its constraint expressions evaluate
to true against the arguments and context. -/
theorem enforce_allowed_iff_sufficient_token {user_context : List (String × Value)}
    (h : (pyLookup "user_id" user_context).isSome)
    (tool_name : String) (args : List (String × Value))
    (user_tokens : List CapabilityToken) :
    SecurityKernel.enforce tool_name args user_tokens user_context
        = .ok SecurityKernel.allowedDecision ↔
      ∃ t ∈ user_tokens, pyFullmatchGlob t.tool_pattern tool_name = true ∧
        ∀ c ∈ t.constraints,
          ConstraintEngine.evaluate c args user_context = .ok true :=
  SecurityKernel.enforce_allowed_char h tool_name args user_tokens

/-- Witness for C1: Alice's sales token allows `salesforce.update_lead`
within her department. -/
theorem enforce_allowed_iff_sufficient_token_witness :
    (pyLookup "user_id" [("user_id", Value.str "alice_sales")]).isSome = true ∧
    SecurityKernel.enforce "salesforce.update_lead"
      [("lead_id", Value.str "L-101"), ("status", Value.str "Qualified"),
       ("department", Value.str "Sales")]
      [⟨"salesforce.*", ["read", "write"], ["department=Sales"], "Sales Team Access"⟩,
       ⟨"gdrive.read_file", ["read"], ["ownedByUser"], "Personal Drive Read"⟩]
      [("user_id", Value.str "alice_sales")] = .ok SecurityKernel.allowedDecision :=
  ⟨by decide,
    (enforce_allowed_iff_sufficient_token (by decide) "salesforce.update_lead"
      [("lead_id", Value.str "L-101"), ("status", Value.str "Qualified"),
       ("department", Value.str "Sales")]
      [⟨"salesforce.*", ["read", "write"], ["department=Sales"], "Sales Team Access"⟩,
       ⟨"gdrive.read_file", ["read"], ["ownedByUser"], "Personal Drive Read"⟩]).mpr
      (by decide)⟩

/-- C1 counterexample: without `user_id` in the context the biconditional of
the claim fails — a fully satisfied matching token exists, yet `enforce`
raises `KeyError` (from an earlier token's `ownedByUser` constraint) instead
of allowing. -/
theorem enforce_allowed_iff_fails_without_user_id :
    SecurityKernel.enforce "t" [("owner", Value.str "x")]
        [⟨"*", [], ["ownedByUser"], ""⟩, ⟨"*", [], [], ""⟩] []
        ≠ .ok SecurityKernel.allowedDecision ∧
    ∃ t ∈ [(⟨"*", [], ["ownedByUser"], ""⟩ : CapabilityToken), ⟨"*", [], [], ""⟩],
      pyFullmatchGlob t.tool_pattern "t" = true ∧
        ∀ c ∈ t.constraints,
          ConstraintEngine.evaluate c [("owner", Value.str "x")] [] = .ok true := by
  decide

/-- C2 (amended): `enforce` returns the denied decision with reason
`NoCapabilityToken` if and only if no held token's pattern fully matches the
tool name, where the pattern is interpreted as the regex obtained by
replacing `*` with `.*`: `*` matches any (possibly empty) character
sequence, a `.` in the pattern matches any single character (it is *not*
literal), other characters match themselves, anchored at both ends.  In
particular a principal holding zero tokens is denied with
`NoCapabilityToken`. -/
theorem enforce_noCapability_iff_no_match (tool_name : String)
    (args user_context : List (String × Value))
    (user_tokens : List CapabilityToken) :
    SecurityKernel.enforce tool_name args user_tokens user_context
        = .ok (SecurityKernel.noCapabilityDecision tool_name) ↔
      ∀ t ∈ user_tokens, pyFullmatchGlob t.tool_pattern tool_name = false :=
  SecurityKernel.enforce_noCap_char tool_name args user_context user_tokens

/-- C2 counterexample: under the claim's "characters taken literally"
match rule the pattern `hr.x` does not match the name `hrQx`, so the claim
forces a `NoCapabilityToken` denial — but the code treats the `.` as a
regex wildcard, matches, and allows. -/
theorem enforce_pattern_dot_not_literal :
    specLiteralGlob "hr.x" "hrQx" = false ∧
    SecurityKernel.enforce "hrQx" [] [⟨"hr.x", [], [], ""⟩] []
        = .ok SecurityKernel.allowedDecision ∧
    SecurityKernel.allowedDecision ≠ SecurityKernel.noCapabilityDecision "hrQx" := by
  decide

/-- C3: the string `"maxRecords=5"` contains `=` and does not start with
`exclude`, so the equality family captures it and always returns: a call
with `limit = 10 > 5` still evaluates to true (the key `maxRecords` is not
among the arguments), and the argument key `maxRecords` — not `limit` — is
what the constraint actually tests.  The numeric-ceiling branch of the
source is unreachable. -/
theorem maxRecords_shadowed_by_equality_family :
    ConstraintEngine.evaluate "maxRecords=5" [("limit", Value.int 10)] [] = .ok true ∧
    ConstraintEngine.evaluate "maxRecords=5" [("maxRecords", Value.str "7")] [] = .ok false ∧
    ConstraintEngine.evaluate "maxRecords=5" [("maxRecords", Value.str "5")] [] = .ok true := by
  decide

/-- C4: `evaluate` is *not* total — on constraint `"ownedByUser"` with an
`owner` (or `user_id`) argument and a context lacking the `user_id` key,
the unguarded `user_context['user_id']` access raises `KeyError`.  A
non-numeric `limit`, by contrast, is harmless. -/
theorem evaluate_ownedByUser_keyError :
    ConstraintEngine.evaluate "ownedByUser" [("owner", Value.str "alice")] [] = .exn ∧
    ConstraintEngine.evaluate "ownedByUser" [("user_id", Value.str "alice")] [] = .exn ∧
    ConstraintEngine.evaluate "ownedByUser" [] [] = .ok true ∧
    ConstraintEngine.evaluate "maxRecords=x" [("limit", Value.str "zzz")] [] = .ok true := by
  decide

/-- C5 (amended): provided the context binds `user_id` (otherwise constraint
evaluation can raise instead of producing a decision), whenever at least one
held token's pattern matches the tool name but every matching token has some
constraint that evaluates false, `enforce` returns the denied decision with
reason `ConstraintViolation` whose detail carries the tool name and, as
`failed_constraint`, the first failing constraint expression of the last
matching token tried. -/
theorem enforce_constraintViolation_last_fail {user_context : List (String × Value)}
    (h : (pyLookup "user_id" user_context).isSome)
    (tool_name : String) (args : List (String × Value))
    (user_tokens : List CapabilityToken)
    (hne : SecurityKernel.matchingTokens tool_name user_tokens ≠ [])
    (hfail : ∀ t ∈ SecurityKernel.matchingTokens tool_name user_tokens,
      ∃ c ∈ t.constraints, ConstraintEngine.evaluate c args user_context = .ok false) :
    SecurityKernel.enforce tool_name args user_tokens user_context =
      .ok ⟨false, "ConstraintViolation",
        some ⟨tool_name, some (SecurityKernel.tokenFirstFail args user_context
          ((SecurityKernel.matchingTokens tool_name user_tokens).getLast hne).constraints)⟩⟩ :=
  SecurityKernel.enforce_violation_char h tool_name args user_tokens hne hfail

/-- Witness for C5: the spec's Example 2 — a `sales.*` token constrained to
`department=Sales`, called on `sales.update_lead` for Engineering, denies
with `failed_constraint = "department=Sales"`; the same call for Sales is
allowed. -/
theorem enforce_constraintViolation_last_fail_witness :
    (pyLookup "user_id" [("user_id", Value.str "u1")]).isSome = true ∧
    SecurityKernel.matchingTokens "sales.update_lead"
        [⟨"sales.*", ["read", "write"], ["department=Sales"], ""⟩] ≠ [] ∧
    (∀ t ∈ SecurityKernel.matchingTokens "sales.update_lead"
        [⟨"sales.*", ["read", "write"], ["department=Sales"], ""⟩],
      ∃ c ∈ t.constraints, ConstraintEngine.evaluate c
        [("department", Value.str "Engineering")] [("user_id", Value.str "u1")] = .ok false) ∧
    SecurityKernel.enforce "sales.update_lead" [("department", Value.str "Engineering")]
        [⟨"sales.*", ["read", "write"], ["department=Sales"], ""⟩]
        [("user_id", Value.str "u1")]
      = .ok ⟨false, "ConstraintViolation",
          some ⟨"sales.update_lead", some (some "department=Sales")⟩⟩ ∧
    SecurityKernel.enforce "sales.update_lead" [("department", Value.str "Sales")]
        [⟨"sales.*", ["read", "write"], ["department=Sales"], ""⟩]
        [("user_id", Value.str "u1")] = .ok SecurityKernel.allowedDecision :=
  ⟨by decide, by decide, by decide,
    (enforce_constraintViolation_last_fail (by decide) "sales.update_lead"
      [("department", Value.str "Engineering")]
      [⟨"sales.*", ["read", "write"], ["department=Sales"], ""⟩]
      (by decide) (by decide)).trans (by decide),
    by decide⟩

/-- C5 counterexample: with no `user_id` in the context, a matching token
none of whose constraint sets are satisfied makes `enforce` raise instead
of returning the `ConstraintViolation` decision the claim demands. -/
theorem enforce_constraintViolation_fails_without_user_id :
    SecurityKernel.matchingTokens "t" [⟨"*", [], ["ownedByUser"], ""⟩] ≠ [] ∧
    (∀ t ∈ SecurityKernel.matchingTokens "t" [⟨"*", [], ["ownedByUser"], ""⟩],
      ¬ ∀ c ∈ t.constraints,
        ConstraintEngine.evaluate c [("owner", Value.str "x")] [] = .ok true) ∧
    SecurityKernel.enforce "t" [("owner", Value.str "x")]
        [⟨"*", [], ["ownedByUser"], ""⟩] [] = .exn := by
  refine ⟨by decide, by decide, by decide⟩

/-- C6 (amended): for a parameter declaring a validation pattern and a
string argument value, `validate_args` fails with `PatternMismatch(field,
pattern)` exactly when *no prefix* of the string matches the pattern — the
check is `re.match`, anchored at the start only, not a full match; a whole-
string match passes in particular (stated for the star-free pattern
fragment the validator's claims exercise). -/
theorem validate_pattern_prefix_anchored (tool_name x pat v : String) :
    (SchemaTranslator.validate_args tool_name [(x, Value.str v)]
          ⟨[(x, ⟨none, some pat⟩)], []⟩
        = ⟨false, some (.patternMismatch x pat)⟩ ↔ pyReMatch pat v = false) ∧
    (reFullmatchStarFree pat v = true →
      SchemaTranslator.validate_args tool_name [(x, Value.str v)]
          ⟨[(x, ⟨none, some pat⟩)], []⟩ = ⟨true, none⟩) := by
  have hred : SchemaTranslator.validate_args tool_name [(x, Value.str v)]
      ⟨[(x, ⟨none, some pat⟩)], []⟩
      = if !(pyReMatch pat v) then ⟨false, some (.patternMismatch x pat)⟩
        else ⟨true, none⟩ := by
    simp [SchemaTranslator.validate_args, SchemaTranslator.checkFields, pyLookup,
      SchemaTranslator.typeCheckError]
  constructor
  · rw [hred]
    cases hm : pyReMatch pat v with
    | false => simp
    | true => simp
  · intro hfull
    rw [hred]
    have hpre : pyReMatch pat v = true := reFullmatch_imp_prefix pat.data v.data hfull
    simp [hpre]

/-- Witness for C6: the whole string `"ab"` fully matches the pattern
`"ab"`, so validation passes. -/
theorem validate_pattern_prefix_anchored_witness :
    reFullmatchStarFree "ab" "ab" = true ∧
    SchemaTranslator.validate_args "t" [("x", Value.str "ab")]
        ⟨[("x", ⟨none, some "ab"⟩)], []⟩ = ⟨true, none⟩ :=
  ⟨by decide, (validate_pattern_prefix_anchored "t" "x" "ab" "ab").2 (by decide)⟩

/-- C6 counterexample: `"abc"` does not match the pattern `"ab"` in full,
yet validation passes, because `re.match` only anchors at the start — so
the claim's "fails exactly when the string does not match in full" is
false. -/
theorem validate_pattern_fullmatch_refuted :
    reFullmatchStarFree "ab" "abc" = false ∧
    SchemaTranslator.validate_args "t" [("x", Value.str "abc")]
        ⟨[("x", ⟨none, some "ab"⟩)], []⟩ = ⟨true, none⟩ := by
  decide

/-- C7 (amended): the validator first normalizes the declared tag by
case-insensitive substring search, in order `int → integer`,
`str → string`, `bool → boolean`, `list → array`, `dict → object`, anything
else `unknown`; a parameter whose normalized tag is `unknown` — which
includes the declared tags `number`, `array` and `object` — always passes,
and otherwise the value must satisfy `validate_type` for the normalized
tag (where `integer` also accepts booleans, Python's `bool` being a
subclass of `int`).  The claim's example holds: declared `int` against
`{x: "5"}` fails with `TypeMismatch(x, integer, str)`. -/
theorem validate_type_tag_normalization :
    (∀ (tool_name x tag : String) (v : Value),
      SchemaTranslator.validate_args tool_name [(x, v)] ⟨[(x, ⟨some tag, none⟩)], []⟩ =
        if SchemaTranslator.normalizeTypeTag tag != "unknown"
            && !(SchemaTranslator.validate_type v (SchemaTranslator.normalizeTypeTag tag)) then
          ⟨false, some (.typeMismatch x (SchemaTranslator.normalizeTypeTag tag) (pyTypeName v))⟩
        else ⟨true, none⟩)
    ∧ SchemaTranslator.normalizeTypeTag "number" = "unknown"
    ∧ SchemaTranslator.normalizeTypeTag "array" = "unknown"
    ∧ SchemaTranslator.normalizeTypeTag "object" = "unknown"
    ∧ SchemaTranslator.normalizeTypeTag "integer" = "integer"
    ∧ SchemaTranslator.normalizeTypeTag "string" = "string"
    ∧ SchemaTranslator.normalizeTypeTag "boolean" = "boolean"
    ∧ (∀ (tool_name x : String) (v : Value),
        SchemaTranslator.validate_args tool_name [(x, v)]
          ⟨[(x, ⟨some "number", none⟩)], []⟩ = ⟨true, none⟩)
    ∧ SchemaTranslator.validate_args "a.b" [("x", Value.str "5")]
        ⟨[("x", ⟨some "int", none⟩)], ["x"]⟩
        = ⟨false, some (.typeMismatch "x" "integer" "str")⟩
    ∧ SchemaTranslator.validate_type (Value.bool true) "integer" = true := by
  refine ⟨SchemaTranslator.validate_args_single_type, by decide, by decide, by decide,
    by decide, by decide, by decide, ?_, by decide, by decide⟩
  intro tool_name x v
  rw [SchemaTranslator.validate_args_single_type]
  have hn : SchemaTranslator.normalizeTypeTag "number" = "unknown" := by decide
  rw [hn]
  simp

/-- C7 counterexample: a declared type of `number` does not restrict the
value to numerics — the tag normalizes to `unknown` and a string passes —
refuting the claim's "`number` accepts any numeric value" compatibility
rule. -/
theorem validate_number_tag_accepts_string :
    SchemaTranslator.validate_args "t" [("x", Value.str "5")]
        ⟨[("x", ⟨some "number", none⟩)], []⟩ = ⟨true, none⟩ ∧
    pyIsInstNum (Value.str "5") = false := by
  decide

/-- C8: `validate_args` fails with a `MissingRequiredArgument` error if and
only if some required parameter's name is absent from the argument map. -/
theorem validate_missing_required_iff (tool_name : String)
    (args : List (String × Value)) (schema : ToolSchema) :
    (∃ f, SchemaTranslator.validate_args tool_name args schema
        = ⟨false, some (.missingRequired f)⟩) ↔
      ∃ f ∈ schema.required, pyLookup f args = none := by
  unfold SchemaTranslator.validate_args
  cases hf : schema.required.find? (fun f => (pyLookup f args).isNone) with
  | some f =>
    constructor
    · intro _
      refine ⟨f, List.mem_of_find?_eq_some hf, ?_⟩
      have hp := List.find?_some hf
      rwa [Option.isNone_iff_eq_none] at hp
    · intro _
      exact ⟨f, rfl⟩
  | none =>
    constructor
    · rintro ⟨f, hc⟩
      exact absurd hc (SchemaTranslator.checkFields_no_missing _ _ f)
    · rintro ⟨f, hmem, habs⟩
      have hnp := List.find?_eq_none.mp hf f hmem
      rw [habs] at hnp
      exact absurd rfl hnp

/-- C9 (amended): provided the context binds `user_id` (without it an
inserted token can make evaluation raise before the satisfying token is
reached), `enforce` is monotonic in the token list — inserting any token at
any position preserves an `Allowed` decision. -/
theorem enforce_monotone_in_tokens {user_context : List (String × Value)}
    (h : (pyLookup "user_id" user_context).isSome)
    (tool_name : String) (args : List (String × Value))
    (l1 l2 : List CapabilityToken) (t' : CapabilityToken)
    (hallow : SecurityKernel.enforce tool_name args (l1 ++ l2) user_context
      = .ok SecurityKernel.allowedDecision) :
    SecurityKernel.enforce tool_name args (l1 ++ t' :: l2) user_context
      = .ok SecurityKernel.allowedDecision := by
  rw [SecurityKernel.enforce_allowed_char h] at hallow ⊢
  obtain ⟨t, ht, hrest⟩ := hallow
  refine ⟨t, ?_, hrest⟩
  rw [List.mem_append] at ht
  rcases ht with h1 | h2
  · exact List.mem_append.mpr (Or.inl h1)
  · exact List.mem_append.mpr (Or.inr (List.mem_cons_of_mem t' h2))

/-- Witness for C9: granting Bob an extra Engineering-restricted salesforce
token in front of his drive token leaves his allowed drive deletion
allowed. -/
theorem enforce_monotone_in_tokens_witness :
    (pyLookup "user_id" [("user_id", Value.str "bob_eng")]).isSome = true ∧
    SecurityKernel.enforce "gdrive.delete_file"
        [("file_id", Value.str "doc-123"), ("owner", Value.str "alice_sales")]
        ([] ++ [⟨"gdrive.*", ["read", "write"], [], "Full Drive Access"⟩])
        [("user_id", Value.str "bob_eng")] = .ok SecurityKernel.allowedDecision ∧
    SecurityKernel.enforce "gdrive.delete_file"
        [("file_id", Value.str "doc-123"), ("owner", Value.str "alice_sales")]
        ([] ++ ⟨"salesforce.get_lead", ["read"], ["department=Engineering"], "Eng Lead View"⟩
          :: [⟨"gdrive.*", ["read", "write"], [], "Full Drive Access"⟩])
        [("user_id", Value.str "bob_eng")] = .ok SecurityKernel.allowedDecision :=
  ⟨by decide, by decide,
    enforce_monotone_in_tokens (by decide) "gdrive.delete_file"
      [("file_id", Value.str "doc-123"), ("owner", Value.str "alice_sales")]
      [] [⟨"gdrive.*", ["read", "write"], [], "Full Drive Access"⟩]
      ⟨"salesforce.get_lead", ["read"], ["department=Engineering"], "Eng Lead View"⟩
      (by decide)⟩

/-- C9 counterexample: without `user_id` in the context, inserting an
`ownedByUser`-constrained token in front of a token that allowed the call
turns the `Allowed` decision into a `KeyError`, so monotonicity as claimed
(for every context) fails. -/
theorem enforce_monotonicity_fails_without_user_id :
    SecurityKernel.enforce "t" [("owner", Value.str "x")] [⟨"*", [], [], ""⟩] []
        = .ok SecurityKernel.allowedDecision ∧
    SecurityKernel.enforce "t" [("owner", Value.str "x")]
        [⟨"*", [], ["ownedByUser"], ""⟩, ⟨"*", [], [], ""⟩] []
        ≠ .ok SecurityKernel.allowedDecision := by
  decide

/-- C10: a constraint string starting with `exclude` is excluded from the
equality family even when it contains `=`, equals no other family's
selector, and falls through to the fail-open default — it evaluates to true
against every argument map and context. -/
theorem evaluate_exclude_fail_open (c : String)
    (args user_context : List (String × Value))
    (h : pyStartsWith "exclude" c = true) :
    ConstraintEngine.evaluate c args user_context = .ok true := by
  have h1 : isPrefixList ('e' :: "xclude".data) c.data = true := h
  obtain ⟨t, ht⟩ := startsWith_head h1
  have hco : (c == "ownedByUser") = false := by
    cases hcc : c == "ownedByUser"
    · rfl
    · exfalso
      rw [beq_iff_eq] at hcc
      subst hcc
      exact absurd h (by decide)
  have hmr : pyStartsWith "maxRecords=" c = false := by
    cases hmm : pyStartsWith "maxRecords=" c
    · rfl
    · exfalso
      have h2 : isPrefixList ('m' :: "axRecords=".data) c.data = true := hmm
      obtain ⟨t2, ht2⟩ := startsWith_head h2
      rw [ht] at ht2
      injection ht2 with hchar _
      exact absurd hchar (by decide)
  unfold ConstraintEngine.evaluate
  rw [if_neg (by simp [h]), if_neg (by simp [hco]), if_neg (by simp [hmr])]

/-- Witness for C10: an `exclude…`-prefixed constraint that syntactically
looks like an equality never restricts a call, even when the named argument
carries a different value. -/
theorem evaluate_exclude_fail_open_witness :
    pyStartsWith "exclude" "excludeAdmin=true" = true ∧
    ConstraintEngine.evaluate "excludeAdmin=true"
      [("excludeAdmin", Value.str "false")] [] = .ok true :=
  ⟨by decide,
    evaluate_exclude_fail_open "excludeAdmin=true"
      [("excludeAdmin", Value.str "false")] [] (by decide)⟩
